import Mathlib

/-!
Shallow embedding of the gofeed state-processor core: the `state` package
(Item / Partition model, OCC repository, watcher control flow) and the
`httprocessor` package (the HTTP reference backend), together with theorems
checking the specification's claims about them.

Conventions of the embedding: Go machine integers are `Int`; timestamps are
abstract integer instants compared with `<`; byte payloads are `List Nat`;
fallible or blocking effects are made explicit (the database row a save
targets, the decode outcome of an HTTP body, a channel as a step relation).
-/

namespace state

/-- Byte payloads (Go `[]byte`) as lists of byte values. -/
abbrev Bytes := List Nat

/-- The `Status` enum: Unknown = 0 (a sentinel), Available, Complete, Failed. -/
inductive Status where
  | Unknown
  | Available
  | Complete
  | Failed
deriving DecidableEq

/-- A Go `error` as the worker observes it: its message string (`Error()`),
and whether `errors.As` finds a `nonRetryableError` in its wrapping chain. -/
structure GoError where
  msg : String
  nonRetryable : Bool
deriving DecidableEq

/-- `NonRetryableError(s)` builds an error marked non-retryable. -/
def NonRetryableError (s : String) : GoError :=
  { msg := s, nonRetryable := true }

/-- `IsRetryable(e)`: true iff `errors.As` does not find a `nonRetryableError`. -/
def IsRetryable (e : GoError) : Bool := !e.nonRetryable

/-- The `Item` row: the `BaseModel` fields (ID, Version, timestamps) plus the
work fields of `struct Item` in the `state` package. -/
structure Item where
  ID : String
  Version : Int
  CreatedAt : Int
  UpdatedAt : Int
  RetryCount : Int
  PartitionID : String
  Gate : Int
  Status : Status
  ErrorMessages : String
  Data : Bytes
deriving DecidableEq

/-- `Item.error` (error accumulation on a dispatch failure): increment
`RetryCount`; if `ErrorMessages` is empty set it to the message, else if the
accumulated string differs from the message append `"\n"` plus the message;
finally move `Status` to Failed when the error is not retryable or the retry
budget is exhausted. `maxRetries` is the package-level variable `MaxRetries`
(negative disables the ceiling). -/
def Item.error (i : Item) (maxRetries : Int) (e : GoError) : Item :=
  let i1 : Item := { i with RetryCount := i.RetryCount + 1 }
  let i2 : Item :=
    if i1.ErrorMessages = "" then { i1 with ErrorMessages := e.msg }
    else if i1.ErrorMessages ≠ e.msg then
      { i1 with ErrorMessages := i1.ErrorMessages ++ "\n" ++ e.msg }
    else i1
  if IsRetryable e = false ∨ (i2.RetryCount > maxRetries ∧ maxRetries ≥ 0) then
    { i2 with Status := .Failed }
  else i2

/-- The `Partition` row: `BaseModel` fields plus gate, status and lease. -/
structure Partition where
  ID : String
  Version : Int
  Gate : Int
  Status : Status
  Owner : String
  Until : Int
deriving DecidableEq

/-- `Partition.Expired`: the lease end lies strictly before the current
instant (`p.Until.Before(time.Now())`). -/
def Partition.Expired (p : Partition) (now : Int) : Bool :=
  decide (p.Until < now)

/-- `Partition.Active`: status is Available and the lease is not expired. -/
def Partition.Active (p : Partition) (now : Int) : Bool :=
  p.Status == .Available && !(p.Expired now)

/-- Modelled from the spec: `Partition.InActive` is called by the partition
watcher but is absent from the sources (only `Active` is); the spec gives its
semantics as status not Available, or lease expired. -/
def Partition.InActive (p : Partition) (now : Int) : Bool :=
  !(p.Status == .Available) || p.Expired now

/-- The stored row as the conditional UPDATE of `GormRepo.Save` sees it:
just its OCC version column. -/
structure DbRow where
  version : Int
deriving DecidableEq

/-- The ORM-issued conditional save, `UPDATE ... WHERE version = ?`: it
errors out iff the database reports an error or no stored row matched the
version predicate, else it persists the new version. This is the narrow
Repository contract the spec states for the external ORM collaborator. -/
def gormConditionalSave (stored : DbRow) (predicateVersion newVersion : Int)
    (dbErr : Bool) : Option DbRow :=
  if dbErr = false ∧ stored.version = predicateVersion then
    some { version := newVersion }
  else none

/-- `GormRepo.Save`: read the in-memory version, speculatively increment it,
attempt the conditional save; on error decrement it back and return false.
The result is (returned bool, in-memory version after, stored row after). -/
def GormRepo.Save (stored : DbRow) (mVersion : Int) (dbErr : Bool) :
    Bool × Int × DbRow :=
  let version := mVersion
  let incremented := mVersion + 1
  match gormConditionalSave stored version incremented dbErr with
  | some row => (true, incremented, row)
  | none => (false, incremented - 1, stored)

/-- `GormRepo.GetPotentialLeases`: all stored partitions with
`status != Complete AND until < now`. -/
def GormRepo.GetPotentialLeases (now : Int) (rows : List Partition) :
    List Partition :=
  rows.filter (fun p => decide (p.Status ≠ .Complete ∧ p.Until < now))

/-- One pass of the lease-acquisition loop body over the potential leases:
partitions whose ID is already in the local leases map are skipped (with a
warning), the rest are inserted and get a partition watcher. The value is
the list of partitions a watcher is spawned for. -/
def acquireLeasesTick (leases : Finset String) (now : Int)
    (rows : List Partition) : List Partition :=
  (GormRepo.GetPotentialLeases now rows).filter (fun p => decide (p.ID ∉ leases))

/-- The `Watcher` configuration fields used by the control flow. -/
structure Watcher where
  OwnerID : String
  BatchSize : Nat
  PollInterval : Int
  ManualCheckpoint : Bool
  AutoClose : Bool
  LeaseInterval : Int
  LeaseDuration : Int

/-- Capacity of the item queue created in `Start`:
`w.itemQ = make(chan *Item, w.BatchSize)`. -/
def Watcher.itemQCapacity (w : Watcher) : Nat := w.BatchSize

/-- The new partition state computed on a watcher tick from the grouped
status counts and the number of items the current fetch returned
(`Watcher.watchPartition`, the branch on `counts`). A missing key in the Go
count map reads as 0, so `counts` is total. -/
def Watcher.watchPartitionState (w : Watcher) (counts : Status → Int)
    (itemsLen : Nat) (p : Partition) : Partition :=
  if counts .Failed > 0 then
    { p with Status := .Failed }
  else if counts .Available > 0 then
    let p1 : Partition := { p with Status := .Available }
    if itemsLen = 0 ∧ w.ManualCheckpoint = false then
      { p1 with Gate := p1.Gate + 1 }
    else p1
  else
    if itemsLen = 0 ∧ w.AutoClose = true then { p with Status := .Complete }
    else p

/-- Outcome of one watcher tick: exit the watcher, or enqueue the fetched
items and continue to the next tick. -/
inductive TickOutcome where
  | exit
  | enqueue (items : List Item)
deriving DecidableEq

/-- One body of the `Watcher.watchPartition` loop after the fetches: compute
the new partition state, stamp owner and lease end, save via OCC, exit when
the save failed or the partition is no longer active, else enqueue the
fetched items. `saveOk` abstracts the boolean result of the OCC save (whose
version bookkeeping is `GormRepo.Save` above). -/
def Watcher.watchPartitionTick (w : Watcher) (now : Int) (counts : Status → Int)
    (items : List Item) (saveOk : Bool) (p : Partition) :
    Partition × TickOutcome :=
  let p1 := w.watchPartitionState counts items.length p
  let p2 : Partition := { p1 with Owner := w.OwnerID, Until := now + w.LeaseDuration }
  if saveOk = false then (p2, .exit)
  else if p2.InActive now = true then (p2, .exit)
  else (p2, .enqueue items)

/-- The deferred cleanup every watcher exit path runs:
`delete(w.leases, p.ID)`. -/
def watcherExitCleanup (leases : Finset String) (pid : String) : Finset String :=
  leases.erase pid

/-- One step of the buffered channel `itemQ` of capacity `cap`: a send
appends only when the occupancy is below the capacity (a full channel blocks
the sender), a receive removes the oldest element. -/
inductive ChanStep (cap : Nat) : List Item → List Item → Prop
  | send (q : List Item) (i : Item) (h : q.length < cap) :
      ChanStep cap q (q ++ [i])
  | recv (q : List Item) (i : Item) : ChanStep cap (i :: q) q

/-- Channel contents reachable from the freshly made empty channel by any
interleaving of sends and receives. -/
inductive ChanReach (cap : Nat) : List Item → Prop
  | init : ChanReach cap []
  | step {q q' : List Item} : ChanReach cap q → ChanStep cap q q' →
      ChanReach cap q'

/-- The structured response of the `Processor` interface. -/
structure ProcessorResponse where
  NextGate : Int
  Complete : Bool
  Data : Bytes
deriving DecidableEq

/-- `Watcher.processItem` up to (not including) the deferred OCC save: the
outcome of `Processor.Process` is passed in. On an error the accumulation
rule of `Item.error` runs; on success status, gate and data come from the
response. -/
def Watcher.processItem (maxRetries : Int)
    (res : Except GoError ProcessorResponse) (i : Item) : Item :=
  match res with
  | .error e => i.error maxRetries e
  | .ok resp =>
    let i1 : Item := if resp.Complete = true then { i with Status := .Complete } else i
    let i2 : Item := { i1 with Gate := resp.NextGate }
    { i2 with Data := resp.Data }

/-- Iterated dispatch failures on one item: fold `Item.error` over a list of
consecutive errors. -/
def applyFailures (maxRetries : Int) (es : List GoError) (i : Item) : Item :=
  es.foldl (fun acc e => acc.error maxRetries e) i

/-- A concrete item used to instantiate universally quantified theorems. -/
def sampleItem : Item :=
  { ID := "s1", Version := 0, CreatedAt := 0, UpdatedAt := 0, RetryCount := 0,
    PartitionID := "p1", Gate := 0, Status := .Available, ErrorMessages := "",
    Data := [] }

/-- A concrete watcher configuration used to instantiate theorems. -/
def sampleWatcher : Watcher :=
  { OwnerID := "w1", BatchSize := 10, PollInterval := 1,
    ManualCheckpoint := false, AutoClose := true, LeaseInterval := 2,
    LeaseDuration := 30 }

/-- A concrete partition used to instantiate universally quantified theorems. -/
def samplePartition : Partition :=
  { ID := "p1", Version := 0, Gate := 0, Status := .Available, Owner := "",
    Until := 0 }

end state

namespace httprocessor

open state

/-- The decoded `error` member of the wire envelope. -/
structure processorError where
  Message : String
  NoRetry : Bool
deriving DecidableEq

/-- The decoded response envelope of the HTTP backend. `Data` is the decoded
`response` object identified with its re-encoded bytes; `none` models a nil
map (the JSON field was absent). -/
structure response where
  NextGate : Int
  Complete : Bool
  Data : Option Bytes
  Error : Option processorError
deriving DecidableEq

/-- `response.GetData`: a nil map is first replaced by the empty object,
whose re-encoding is the two brace bytes plus the encoder's newline
(bytes 123, 125, 10); otherwise the object re-encodes to its bytes. -/
def response.GetData (r : response) : Bytes :=
  match r.Data with
  | none => [123, 125, 10]
  | some d => d

/-- `response.procResponse`: package the envelope into the Processor
interface response. -/
def response.procResponse (r : response) : ProcessorResponse :=
  { NextGate := r.NextGate, Complete := r.Complete, Data := r.GetData }

/-- The wire response as `Process` observes it: numeric status code, status
string (Go `resp.Status`), and the outcome of decoding the body into the
envelope (the decoder's message on failure). -/
structure HttpResp where
  StatusCode : Int
  Status : String
  BodyDecode : Except String response

/-- `Processor.Process` of the HTTP backend: POST the payload; on transport
error return it; on body-decode failure return a retryable error naming the
decode error and the HTTP status; if the envelope carries an `error` member
return `Status <s>; message: <m>`, non-retryable iff `no_retry`; else reject
non-2xx statuses with a retryable error equal to the status string; else
hand back the envelope as a `ProcessorResponse`. `postResult` abstracts the
client's POST outcome. -/
def Process (postResult : Except String HttpResp) :
    Except GoError ProcessorResponse :=
  match postResult with
  | .error transportErr => .error { msg := transportErr, nonRetryable := false }
  | .ok resp =>
    match resp.BodyDecode with
    | .error decodeErr =>
      .error { msg := "marshal error: " ++ decodeErr ++
                      ", from request with HTTP Status: " ++ resp.Status,
               nonRetryable := false }
    | .ok respObj =>
      match respObj.Error with
      | some pe =>
        let m := "Status " ++ resp.Status ++ "; message: " ++ pe.Message
        if pe.NoRetry = true then .error (NonRetryableError m)
        else .error { msg := m, nonRetryable := false }
      | none =>
        if resp.StatusCode < 200 ∨ resp.StatusCode ≥ 300 then
          .error { msg := resp.Status, nonRetryable := false }
        else .ok respObj.procResponse

/-- `Processor.Healthcheck` of the HTTP backend: with an empty
`HealthEndpoint` return nil without touching the client; otherwise GET the
health URL and run `resp.Body.Close()` before looking at the error, so a nil
response (`getResp = none`, as the standard client produces on a transport
error) dereferences nil: that crash is the `.error ()` result. Otherwise the
GET's error value (`getErr`) is returned as is. -/
def Healthcheck (healthEndpoint : String) (getResp : Option Int)
    (getErr : Option String) : Except Unit (Option String) :=
  if healthEndpoint = "" then .ok none
  else
    match getResp with
    | none => .error ()
    | some _ => .ok getErr

end httprocessor

open state httprocessor

/-- C1: GormRepo.Save succeeds and returns true exactly when the stored
row's version equals the entity's version and the database reported no
error; on success the stored and in-memory versions both become the
pre-call version plus 1; on failure (version mismatch or database error)
the in-memory version is rolled back to its pre-call value and the stored
row is unchanged. -/
theorem c1_gormRepo_save_occ (stored : DbRow) (m : Int) (dbErr : Bool) :
    ((GormRepo.Save stored m dbErr).1 = true ↔
      (stored.version = m ∧ dbErr = false))
    ∧ ((GormRepo.Save stored m dbErr).1 = true →
        (GormRepo.Save stored m dbErr).2.1 = m + 1
        ∧ ((GormRepo.Save stored m dbErr).2.2).version = m + 1)
    ∧ ((GormRepo.Save stored m dbErr).1 = false →
        (GormRepo.Save stored m dbErr).2.1 = m
        ∧ (GormRepo.Save stored m dbErr).2.2 = stored) := by
  by_cases h : dbErr = false ∧ stored.version = m
  · obtain ⟨h1, h2⟩ := h
    subst h1
    have hsome : gormConditionalSave stored m (m + 1) false = some ⟨m + 1⟩ := by
      unfold gormConditionalSave; rw [if_pos ⟨rfl, h2⟩]
    simp [GormRepo.Save, hsome, h2]
  · have hnone : gormConditionalSave stored m (m + 1) dbErr = none := by
      unfold gormConditionalSave; rw [if_neg h]
    simp only [GormRepo.Save, hnone]
    refine ⟨⟨fun hc => absurd hc (by simp), fun hc => absurd ⟨hc.2, hc.1⟩ h⟩,
      by simp, by simp⟩

theorem c1_gormRepo_save_occ_witness :
    ((GormRepo.Save ⟨2⟩ 2 false).2.1 = 2 + 1
      ∧ ((GormRepo.Save ⟨2⟩ 2 false).2.2).version = 2 + 1)
    ∧ ((GormRepo.Save ⟨5⟩ 2 false).2.1 = 2
      ∧ (GormRepo.Save ⟨5⟩ 2 false).2.2 = ⟨5⟩) := by
  refine ⟨(c1_gormRepo_save_occ ⟨2⟩ 2 false).2.1 (by decide),
          (c1_gormRepo_save_occ ⟨5⟩ 2 false).2.2 (by decide)⟩

/-- C2: on a watcher tick, the new partition state is: Failed when the
Failed count is positive; else Available when the Available count is
positive, with the gate incremented by one exactly when additionally the
fetch returned zero items and ManualCheckpoint is false; else the gate is
kept and the status becomes Complete exactly when the fetch returned zero
items and AutoClose is true, and is left unchanged otherwise. -/
theorem c2_watchPartitionState (w : Watcher) (counts : Status → Int)
    (n : Nat) (p : Partition) :
    (counts .Failed > 0 →
      (w.watchPartitionState counts n p).Status = .Failed
      ∧ (w.watchPartitionState counts n p).Gate = p.Gate)
    ∧ (counts .Failed ≤ 0 → counts .Available > 0 →
        (w.watchPartitionState counts n p).Status = .Available
        ∧ ((n = 0 ∧ w.ManualCheckpoint = false) →
            (w.watchPartitionState counts n p).Gate = p.Gate + 1)
        ∧ (¬(n = 0 ∧ w.ManualCheckpoint = false) →
            (w.watchPartitionState counts n p).Gate = p.Gate))
    ∧ (counts .Failed ≤ 0 → counts .Available ≤ 0 →
        (w.watchPartitionState counts n p).Gate = p.Gate
        ∧ ((n = 0 ∧ w.AutoClose = true) →
            (w.watchPartitionState counts n p).Status = .Complete)
        ∧ (¬(n = 0 ∧ w.AutoClose = true) →
            (w.watchPartitionState counts n p).Status = p.Status)) := by
  unfold Watcher.watchPartitionState
  refine ⟨fun hf => ?_, fun hf ha => ?_, fun hf ha => ?_⟩
  · simp [if_pos hf]
  · rw [if_neg (by omega), if_pos ha]
    constructor
    · split <;> rfl
    · constructor
      · intro h; rw [if_pos h]
      · intro h; rw [if_neg h]
  · rw [if_neg (by omega), if_neg (by omega)]
    refine ⟨by split <;> rfl, fun h => by rw [if_pos h], fun h => by rw [if_neg h]⟩

theorem c2_watchPartitionState_witness :
    ((sampleWatcher.watchPartitionState (fun _ => 0) 0 samplePartition).Gate
        = samplePartition.Gate
      ∧ (sampleWatcher.watchPartitionState (fun _ => 0) 0 samplePartition).Status
        = .Complete)
    ∧ ((sampleWatcher.watchPartitionState
          (fun s => if s = .Available then 1 else 0) 0 samplePartition).Status
        = .Available
      ∧ (sampleWatcher.watchPartitionState
          (fun s => if s = .Available then 1 else 0) 0 samplePartition).Gate
        = samplePartition.Gate + 1) := by
  have h1 := (c2_watchPartitionState sampleWatcher (fun _ => 0) 0
    samplePartition).2.2 (by decide) (by decide)
  have h2 := (c2_watchPartitionState sampleWatcher
    (fun s => if s = .Available then 1 else 0) 0 samplePartition).2.1
    (by decide) (by decide)
  exact ⟨⟨h1.1, h1.2.1 (by decide)⟩, ⟨h2.1, h2.2.1 (by decide)⟩⟩

theorem error_retryCount_eq (i : Item) (mr : Int) (e : GoError) :
    (i.error mr e).RetryCount = i.RetryCount + 1 := by
  unfold Item.error
  dsimp only
  split_ifs <;> rfl

theorem error_status_eq (i : Item) (mr : Int) (e : GoError) :
    (i.error mr e).Status =
      if IsRetryable e = false ∨ (i.RetryCount + 1 > mr ∧ mr ≥ 0) then
        Status.Failed
      else i.Status := by
  unfold Item.error
  dsimp only
  split_ifs <;> rfl

theorem error_messages_eq (i : Item) (mr : Int) (e : GoError) :
    (i.error mr e).ErrorMessages =
      if i.ErrorMessages = "" then e.msg
      else if i.ErrorMessages ≠ e.msg then i.ErrorMessages ++ "\n" ++ e.msg
      else i.ErrorMessages := by
  unfold Item.error
  dsimp only
  split_ifs <;> rfl

theorem applyFailures_nil (mr : Int) (i : Item) :
    applyFailures mr [] i = i := rfl

theorem applyFailures_cons (mr : Int) (e : GoError) (es : List GoError)
    (i : Item) :
    applyFailures mr (e :: es) i = applyFailures mr es (i.error mr e) := rfl

theorem applyFailures_retryCount (mr : Int) (es : List GoError) (i : Item) :
    (applyFailures mr es i).RetryCount = i.RetryCount + es.length := by
  induction es generalizing i with
  | nil => simp [applyFailures_nil]
  | cons e es ih =>
    rw [applyFailures_cons, ih, error_retryCount_eq]
    simp only [List.length_cons]
    push_cast
    ring

theorem applyFailures_fail (mr : Int) (es : List GoError) (i : Item)
    (hne : es ≠ []) (hmr : 0 ≤ mr) (hcnt : mr < i.RetryCount + es.length) :
    (applyFailures mr es i).Status = .Failed := by
  induction es generalizing i with
  | nil => exact absurd rfl hne
  | cons e es ih =>
    rw [applyFailures_cons]
    rcases es with _ | ⟨e2, es2⟩
    · rw [applyFailures_nil, error_status_eq]
      rw [if_pos (Or.inr ⟨by simp at hcnt; omega, hmr⟩)]
    · refine ih (i.error mr e) (by simp) ?_
      rw [error_retryCount_eq]
      simp only [List.length_cons] at hcnt ⊢
      push_cast at hcnt ⊢
      omega

theorem applyFailures_status_no_ceiling (es : List GoError) (i : Item)
    (hr : ∀ e ∈ es, IsRetryable e = true) :
    (applyFailures (-1) es i).Status = i.Status := by
  induction es generalizing i with
  | nil => rw [applyFailures_nil]
  | cons e es ih =>
    rw [applyFailures_cons, ih _ (fun e' he' => hr e' (List.mem_cons_of_mem e he')),
      error_status_eq]
    rw [if_neg]
    push_neg
    exact ⟨by simp [hr e (List.mem_cons_self e es)], fun _ => by omega⟩

/-- C3: a dispatch failure sets status to Failed exactly when the error is
not retryable or the incremented retry count exceeds MaxRetries with
MaxRetries nonnegative; a single non-retryable failure forces Failed; after
MaxRetries + 1 consecutive retryable failures starting from retry count 0
(MaxRetries nonnegative) the status is Failed; with MaxRetries = -1
retryable failures never change the status to Failed. -/
theorem c3_item_error_retry_ceiling (i : Item) (mr : Int) (e : GoError)
    (es : List GoError) :
    ((i.error mr e).Status =
      if IsRetryable e = false ∨ (i.RetryCount + 1 > mr ∧ mr ≥ 0) then
        Status.Failed
      else i.Status)
    ∧ (IsRetryable e = false → (i.error mr e).Status = .Failed)
    ∧ (mr ≥ 0 → i.RetryCount = 0 → (es.length : Int) = mr + 1 →
        (∀ e' ∈ es, IsRetryable e' = true) →
        (applyFailures mr es i).Status = .Failed)
    ∧ ((∀ e' ∈ es, IsRetryable e' = true) →
        (applyFailures (-1) es i).Status = i.Status) := by
  refine ⟨error_status_eq i mr e, ?_, ?_, applyFailures_status_no_ceiling es i⟩
  · intro h
    rw [error_status_eq, if_pos (Or.inl h)]
  · intro hmr h0 hlen _
    refine applyFailures_fail mr es i ?_ hmr (by omega)
    intro hnil
    rw [hnil] at hlen
    simp at hlen
    omega

theorem c3_item_error_retry_ceiling_witness :
    ((sampleItem.error 1 ⟨"boom", true⟩).Status = .Failed)
    ∧ ((applyFailures 1 [⟨"x", false⟩, ⟨"x", false⟩] sampleItem).Status = .Failed)
    ∧ ((applyFailures (-1) [⟨"x", false⟩, ⟨"x", false⟩] sampleItem).Status
        = sampleItem.Status) := by
  refine ⟨(c3_item_error_retry_ceiling sampleItem 1 ⟨"boom", true⟩ []).2.1
      (by decide),
    (c3_item_error_retry_ceiling sampleItem 1 ⟨"x", false⟩
      [⟨"x", false⟩, ⟨"x", false⟩]).2.2.1 (by decide) (by decide) (by decide)
      (by decide),
    (c3_item_error_retry_ceiling sampleItem 1 ⟨"x", false⟩
      [⟨"x", false⟩, ⟨"x", false⟩]).2.2.2 (by decide)⟩

/-- C4 counterexample: the deduplication compares the whole accumulated
string, not the most recently appended message. After failures with messages
"a" then "b", a third failure repeating "b" (the most recently appended
message) appends again, while the claim demands the string stay "a\nb". -/
theorem c4_counterexample :
    (((sampleItem.error 5 ⟨"a", false⟩).error 5 ⟨"b", false⟩).error 5
        ⟨"b", false⟩).ErrorMessages = "a\nb\nb"
    ∧ ((sampleItem.error 5 ⟨"a", false⟩).error 5 ⟨"b", false⟩).ErrorMessages
        = "a\nb"
    ∧ ("a\nb\nb" : String) ≠ "a\nb" := by
  exact ⟨by decide, by decide, by decide⟩

/-- C4 amended: a dispatch failure increments retry_count by exactly 1 and
updates error_messages as follows: if empty it becomes e.message; else, if
the whole accumulated string differs from e.message, "\n" + e.message is
appended; else (the whole accumulated string equals e.message, which can
only happen while a single distinct message has been recorded) it is left
unchanged. -/
theorem c4_error_message_accumulation (i : Item) (mr : Int) (e : GoError) :
    ((i.error mr e).RetryCount = i.RetryCount + 1)
    ∧ (i.ErrorMessages = "" → (i.error mr e).ErrorMessages = e.msg)
    ∧ (i.ErrorMessages ≠ "" → i.ErrorMessages ≠ e.msg →
        (i.error mr e).ErrorMessages = i.ErrorMessages ++ "\n" ++ e.msg)
    ∧ (i.ErrorMessages ≠ "" → i.ErrorMessages = e.msg →
        (i.error mr e).ErrorMessages = i.ErrorMessages) := by
  refine ⟨error_retryCount_eq i mr e, ?_, ?_, ?_⟩
  · intro h
    rw [error_messages_eq, if_pos h]
  · intro h1 h2
    rw [error_messages_eq, if_neg h1, if_pos h2]
  · intro h1 h2
    rw [error_messages_eq, if_neg h1, if_neg (by simpa using h2)]

theorem c4_error_message_accumulation_witness :
    ((sampleItem.error 5 ⟨"a", false⟩).RetryCount = sampleItem.RetryCount + 1)
    ∧ ((sampleItem.error 5 ⟨"a", false⟩).ErrorMessages = "a")
    ∧ (((sampleItem.error 5 ⟨"a", false⟩).error 5 ⟨"b", false⟩).ErrorMessages
        = "a" ++ "\n" ++ "b")
    ∧ (((sampleItem.error 5 ⟨"a", false⟩).error 5 ⟨"a", false⟩).ErrorMessages
        = "a") := by
  refine ⟨(c4_error_message_accumulation sampleItem 5 ⟨"a", false⟩).1,
    (c4_error_message_accumulation sampleItem 5 ⟨"a", false⟩).2.1 (by decide),
    ?_, ?_⟩
  · have h := (c4_error_message_accumulation (sampleItem.error 5 ⟨"a", false⟩)
      5 ⟨"b", false⟩).2.2.1 (by decide) (by decide)
    rw [h]
    decide
  · have h := (c4_error_message_accumulation (sampleItem.error 5 ⟨"a", false⟩)
      5 ⟨"a", false⟩).2.2.2 (by decide) (by decide)
    rw [h]
    decide

/-- C5: GetPotentialLeases returns exactly the partitions whose status is
not Complete and whose until timestamp is earlier than now; hence a Complete
partition is never returned, and the lease-acquisition pass (which only
spawns watchers for returned partitions) never re-leases one. -/
theorem c5_getPotentialLeases (now : Int) (rows : List Partition)
    (leases : Finset String) :
    (∀ p : Partition, p ∈ GormRepo.GetPotentialLeases now rows ↔
        (p ∈ rows ∧ p.Status ≠ .Complete ∧ p.Until < now))
    ∧ (∀ p ∈ GormRepo.GetPotentialLeases now rows, p.Status ≠ .Complete)
    ∧ (∀ p ∈ acquireLeasesTick leases now rows, p.Status ≠ .Complete) := by
  have hmem : ∀ p : Partition, p ∈ GormRepo.GetPotentialLeases now rows ↔
      (p ∈ rows ∧ p.Status ≠ .Complete ∧ p.Until < now) := by
    intro p
    simp [GormRepo.GetPotentialLeases, List.mem_filter]
  refine ⟨hmem, fun p hp => ((hmem p).1 hp).2.1, fun p hp => ?_⟩
  simp only [acquireLeasesTick, List.mem_filter] at hp
  exact ((hmem p).1 hp.1).2.1

theorem c5_getPotentialLeases_witness :
    (⟨"pa", 0, 0, .Available, "", -5⟩ : Partition) ∈
      GormRepo.GetPotentialLeases 0
        [⟨"pc", 0, 0, .Complete, "", -5⟩, ⟨"pa", 0, 0, .Available, "", -5⟩]
    ∧ (⟨"pc", 0, 0, .Complete, "", -5⟩ : Partition) ∉
      GormRepo.GetPotentialLeases 0
        [⟨"pc", 0, 0, .Complete, "", -5⟩, ⟨"pa", 0, 0, .Available, "", -5⟩] := by
  have h := c5_getPotentialLeases 0
    [⟨"pc", 0, 0, .Complete, "", -5⟩, ⟨"pa", 0, 0, .Available, "", -5⟩] ∅
  refine ⟨(h.1 ⟨"pa", 0, 0, .Available, "", -5⟩).2
      ⟨by decide, by decide, by decide⟩, fun hc => ?_⟩
  exact absurd rfl (h.2.1 ⟨"pc", 0, 0, .Complete, "", -5⟩ hc)

/-- C6: after stamping owner and until, a watcher tick exits (and every exit
path removes the partition id from the leases map) exactly when the OCC save
returned false or the stamped partition is no longer active, meaning its
status is not Available or its lease end is earlier than now; otherwise the
tick enqueues the fetched items and continues. -/
theorem c6_watchPartition_exit (w : Watcher) (now : Int)
    (counts : Status → Int) (items : List Item) (saveOk : Bool)
    (p : Partition) (leases : Finset String) (pid : String) :
    ((w.watchPartitionTick now counts items saveOk p).2 = .exit ↔
      (saveOk = false ∨
        ((w.watchPartitionTick now counts items saveOk p).1).InActive now
          = true))
    ∧ (saveOk = true →
        ((w.watchPartitionTick now counts items saveOk p).1).InActive now
          = false →
        (w.watchPartitionTick now counts items saveOk p).2 = .enqueue items)
    ∧ ((w.watchPartitionTick now counts items saveOk p).1).Owner = w.OwnerID
    ∧ ((w.watchPartitionTick now counts items saveOk p).1).Until
        = now + w.LeaseDuration
    ∧ pid ∉ watcherExitCleanup leases pid := by
  have hclean : pid ∉ watcherExitCleanup leases pid :=
    Finset.not_mem_erase pid leases
  unfold Watcher.watchPartitionTick
  dsimp only
  split_ifs with h1 h2
  · refine ⟨⟨fun _ => Or.inl h1, fun _ => rfl⟩, fun hs _ => ?_, rfl, rfl, hclean⟩
    rw [h1] at hs
    exact absurd hs (by simp)
  · refine ⟨⟨fun _ => Or.inr h2, fun _ => rfl⟩, fun _ hin => ?_, rfl, rfl,
      hclean⟩
    exact absurd h2 (by simp [hin])
  · refine ⟨⟨fun hc => ?_, fun hc => ?_⟩, fun _ _ => rfl, rfl, rfl, hclean⟩
    · exact hc.elim
    · rcases hc with hc | hc
      · exact absurd hc h1
      · exact absurd hc h2

theorem c6_watchPartition_exit_witness :
    ((sampleWatcher.watchPartitionTick 0 (fun _ => 0) [] false
        samplePartition).2 = .exit)
    ∧ ((sampleWatcher.watchPartitionTick 0
        (fun s => if s = .Available then 1 else 0) [sampleItem] true
        samplePartition).2 = .enqueue [sampleItem]) := by
  refine ⟨(c6_watchPartition_exit sampleWatcher 0 (fun _ => 0) [] false
      samplePartition ∅ "p1").1.2 (Or.inl rfl),
    (c6_watchPartition_exit sampleWatcher 0
      (fun s => if s = .Available then 1 else 0) [sampleItem] true
      samplePartition ∅ "p1").2.1 rfl (by decide)⟩

/-- C8: the item queue is created with capacity BatchSize and a send blocks
when the occupancy equals the capacity, so every channel content reachable
by any interleaving of watcher sends and dispatcher receives holds at most
BatchSize items. -/
theorem c8_itemQ_bounded (w : Watcher) (q : List Item)
    (h : ChanReach w.itemQCapacity q) : q.length ≤ w.BatchSize := by
  induction h with
  | init => simp
  | step hr hs ih =>
    cases hs with
    | send qq i hlt =>
      simp only [List.length_append, List.length_singleton]
      exact hlt
    | recv qq i =>
      simp only [List.length_cons] at ih
      omega

theorem c8_itemQ_bounded_witness :
    ([sampleItem] : List Item).length ≤ sampleWatcher.BatchSize :=
  c8_itemQ_bounded sampleWatcher [sampleItem]
    (ChanReach.step ChanReach.init (ChanStep.send [] sampleItem (by decide)))

theorem error_frame (i : Item) (mr : Int) (e : GoError) :
    (i.error mr e).ID = i.ID ∧ (i.error mr e).Version = i.Version
    ∧ (i.error mr e).CreatedAt = i.CreatedAt
    ∧ (i.error mr e).UpdatedAt = i.UpdatedAt
    ∧ (i.error mr e).PartitionID = i.PartitionID
    ∧ (i.error mr e).Gate = i.Gate
    ∧ (i.error mr e).Data = i.Data := by
  unfold Item.error
  dsimp only
  split_ifs <;> exact ⟨rfl, rfl, rfl, rfl, rfl, rfl, rfl⟩

/-- C9: when Process returns an error, the dispatcher leaves the item's
Data and Gate (and its identity fields) exactly as they were, touching only
RetryCount, ErrorMessages and possibly Status; Gate and Data are overwritten
from the processor response only on the success path. -/
theorem c9_processItem_error_frame (mr : Int) (e : GoError)
    (r : ProcessorResponse) (i : Item) :
    ((Watcher.processItem mr (.error e) i).Data = i.Data)
    ∧ ((Watcher.processItem mr (.error e) i).Gate = i.Gate)
    ∧ ((Watcher.processItem mr (.error e) i).ID = i.ID)
    ∧ ((Watcher.processItem mr (.error e) i).PartitionID = i.PartitionID)
    ∧ ((Watcher.processItem mr (.error e) i).Version = i.Version)
    ∧ ((Watcher.processItem mr (.error e) i).CreatedAt = i.CreatedAt)
    ∧ ((Watcher.processItem mr (.error e) i).UpdatedAt = i.UpdatedAt)
    ∧ ((Watcher.processItem mr (.ok r) i).Gate = r.NextGate)
    ∧ ((Watcher.processItem mr (.ok r) i).Data = r.Data) := by
  have hf := error_frame i mr e
  exact ⟨hf.2.2.2.2.2.2, hf.2.2.2.2.2.1, hf.1, hf.2.2.2.2.1, hf.2.1,
    hf.2.2.1, hf.2.2.2.1, rfl, rfl⟩

/-- C7: when the body decodes and the envelope's error member is non-null,
Process returns the error "Status s; message: m", non-retryable exactly when
no_retry is true, whatever the HTTP status code is; with a null error member
and a status code outside 200-299 it returns a retryable error whose message
is the status string; a body that fails to decode yields a retryable error
whose message carries the HTTP status and the decoder error. -/
theorem c7_http_process_errors (sc : Int) (ss decodeErr : String) (g : Int)
    (c : Bool) (d : Option Bytes) (pe : processorError) :
    (Process (.ok ⟨sc, ss, .ok ⟨g, c, d, some pe⟩⟩)
        = .error ⟨"Status " ++ ss ++ "; message: " ++ pe.Message, pe.NoRetry⟩)
    ∧ (IsRetryable ⟨"Status " ++ ss ++ "; message: " ++ pe.Message, pe.NoRetry⟩
        = !pe.NoRetry)
    ∧ ((sc < 200 ∨ sc ≥ 300) →
        Process (.ok ⟨sc, ss, .ok ⟨g, c, d, none⟩⟩) = .error ⟨ss, false⟩)
    ∧ (Process (.ok ⟨sc, ss, .error decodeErr⟩)
        = .error ⟨"marshal error: " ++ decodeErr ++
            ", from request with HTTP Status: " ++ ss, false⟩)
    ∧ (IsRetryable ⟨ss, false⟩ = true
        ∧ IsRetryable ⟨"marshal error: " ++ decodeErr ++
            ", from request with HTTP Status: " ++ ss, false⟩ = true) := by
  refine ⟨?_, rfl, fun hout => ?_, rfl, rfl, rfl⟩
  · cases pe with
    | mk msg nr =>
      cases nr with
      | false => rfl
      | true => rfl
  · unfold Process
    dsimp only
    rw [if_pos hout]

theorem c7_http_process_errors_witness :
    (Process (.ok ⟨500, "HTTP 500", .ok ⟨0, false, none,
        some ⟨"boom", true⟩⟩⟩)
      = .error ⟨"Status " ++ "HTTP 500" ++ "; message: " ++ "boom", true⟩)
    ∧ (Process (.ok ⟨400, "HTTP 400", .ok ⟨0, false, none, none⟩⟩)
      = .error ⟨"HTTP 400", false⟩) := by
  refine ⟨(c7_http_process_errors 500 "HTTP 500" "" 0 false none
      ⟨"boom", true⟩).1,
    (c7_http_process_errors 400 "HTTP 400" "" 0 false none
      ⟨"boom", true⟩).2.2.1 (by decide)⟩

/-- C10 counterexample: with a non-empty HealthEndpoint, when the client's
Get reports a transport error together with a nil response (as the standard
HTTP client does), Healthcheck dereferences the nil response (the crash
result) instead of returning the transport error, so it does not return
exactly the transport-level error of the GET request. -/
theorem c10_counterexample :
    Healthcheck "/healthz" none (some "connection refused") = .error ()
    ∧ Healthcheck "/healthz" none (some "connection refused")
        ≠ .ok (some "connection refused") := by
  refine ⟨rfl, fun hc => ?_⟩
  rw [show Healthcheck "/healthz" none (some "connection refused")
    = .error () from rfl] at hc
  exact Except.noConfusion hc

/-- C10 amended: with a non-empty HealthEndpoint, whenever Get returns a
non-nil response Healthcheck returns exactly Get's error value and never
inspects the response's status code, so a nil error yields nil even for a
4xx or 5xx health answer; when Get returns a nil response the method
dereferences nil instead of returning the error; with an empty
HealthEndpoint it returns nil whatever the client would do. -/
theorem c10_healthcheck (ep : String) (sc : Int) (e : Option String)
    (m : String) (r1 : Option Int) (e1 : Option String) :
    (ep ≠ "" → Healthcheck ep (some sc) e = .ok e)
    ∧ (ep ≠ "" → Healthcheck ep none (some m) = .error ())
    ∧ Healthcheck "" r1 e1 = .ok none := by
  refine ⟨fun h => ?_, fun h => ?_, rfl⟩
  · unfold Healthcheck
    rw [if_neg h]
  · unfold Healthcheck
    rw [if_neg h]

theorem c10_healthcheck_witness :
    (Healthcheck "/healthz" (some 503) none = .ok none)
    ∧ (Healthcheck "/healthz" none (some "dial refused") = .error ())
    ∧ (Healthcheck "" (some 503) (some "x") = .ok none) := by
  refine ⟨(c10_healthcheck "/healthz" 503 none "x" none none).1 (by decide),
    (c10_healthcheck "/healthz" 503 none "dial refused" none none).2.1
      (by decide),
    (c10_healthcheck "" 503 none "x" (some 503) (some "x")).2.2⟩
